import Mathlib

/-!
# Verification of `pdf_to_markdown.py`

A shallow embedding of the orchestration logic of the repository's single
source file `src/pdf_to_markdown.py` (function `convert_pdf_to_markdown`),
together with theorems settling the specification's claims about it.

Modelling choices:

* A filesystem path is its list of components (`FsPath`); the filesystem is a
  finite map from paths to file contents plus a set of existing directories
  (`FS`).  `str(path)` is the components joined by `/`.
* Python's `pathlib.PurePath.suffix` / `.stem` are embedded faithfully:
  the suffix is taken from the last `.` of the final component only when
  that dot is neither the first nor the last character of the name
  (so the name `.pdf` has suffix `""` and stem `.pdf`).
* Python's format `f"{n:03d}"` is embedded as decimal rendering left-padded
  with `0` to a minimum width of 3 (`pad3`), never truncating.
* The external library (`pymupdf.open`, `pymupdf4llm.to_markdown`) and the
  possibility of OS write errors are an oracle `Doc`: the page count the
  open call would report, the markdown text each per-page rendering call
  returns (or the error it raises), and which page file writes fail.
  Opening a path that is not a regular file (e.g. a directory) fails, as
  `pymupdf.open` does.
* Exceptions are the explicit result `Result.err`; the Python caller's view
  (`FileNotFoundError`, `ValueError`, anything else) is the inductive `Err`.
  The filesystem and the lines printed to stdout up to the point of failure
  are returned alongside, mirroring that side effects persist when an
  exception propagates.
-/

abbrev FsPath := List String

def FsPath.toStr (p : FsPath) : String := String.intercalate "/" p

/-- `PurePath.name`: the final path component (`""` for an empty path). -/
def FsPath.name (p : FsPath) : String := p.getLastD ""

/-- `PurePath.parent`: the path without its final component. -/
def FsPath.parent (p : FsPath) : FsPath := p.dropLast

/-- Index of the last occurrence of `.` in a list of characters
(CPython's `name.rfind('.')`, as `Option`). -/
def lastDotIdx : List Char → Option Nat
  | [] => none
  | c :: rest =>
    match lastDotIdx rest with
    | some i => some (i + 1)
    | none => if c = '.' then some 0 else none

/-- `PurePath.suffix`: the extension of the final component, from its last
dot, provided that dot is neither at position 0 nor the last character
(CPython: `0 < i < len(name) - 1`). -/
def nameSuffix (name : String) : String :=
  let cs := name.toList
  match lastDotIdx cs with
  | some i => if 0 < i ∧ i < cs.length - 1 then String.mk (cs.drop i) else ""
  | none => ""

/-- `PurePath.stem`: the final component without its suffix. -/
def nameStem (name : String) : String :=
  let cs := name.toList
  match lastDotIdx cs with
  | some i => if 0 < i ∧ i < cs.length - 1 then String.mk (cs.take i) else name
  | none => name

/-- `str.lower()` (ASCII case fold, which covers the `.PDF`-style inputs the
extension check compares). -/
def lowerStr (s : String) : String := String.mk (s.toList.map Char.toLower)

/-- Decimal digits of `n`, most significant first; `fuel` bounds recursion
(structural, so the kernel can evaluate it). -/
def natDigitsAux : Nat → Nat → List Char
  | 0, _ => []
  | fuel + 1, n =>
    if n < 10 then [Nat.digitChar n]
    else natDigitsAux fuel (n / 10) ++ [Nat.digitChar (n % 10)]

def natDigits (n : Nat) : List Char := natDigitsAux (n + 1) n

/-- Plain decimal rendering of `n` (Python's `str(n)` / `{n}` formatting). -/
def natDec (n : Nat) : String := String.mk (natDigits n)

/-- `f"{n:03d}"`: decimal rendering of `n`, left-padded with zeros to a
minimum width of 3; wider numbers are rendered in full, never truncated. -/
def pad3Chars (n : Nat) : List Char :=
  List.replicate (3 - (natDigits n).length) '0' ++ natDigits n

def pad3 (n : Nat) : String := String.mk (pad3Chars n)

/-- Decimal value of a digit string (each char contributes `c - '0'`). -/
def decodeDec (cs : List Char) : Nat :=
  cs.foldl (fun a c => a * 10 + (c.toNat - 48)) 0

/-- The filesystem: regular files (path ↦ contents) and directories. -/
structure FS where
  files : List (FsPath × String)
  dirs : List FsPath
deriving DecidableEq, Repr

def updateAssoc : List (FsPath × String) → FsPath → String → List (FsPath × String)
  | [], p, c => [(p, c)]
  | (q, d) :: rest, p, c =>
    if q = p then (p, c) :: rest else (q, d) :: updateAssoc rest p c

def lookupAssoc : List (FsPath × String) → FsPath → Option String
  | [], _ => none
  | (q, d) :: rest, p => if q = p then some d else lookupAssoc rest p

def FS.isFile (fs : FS) (p : FsPath) : Bool :=
  (lookupAssoc fs.files p).isSome

def FS.isDir (fs : FS) (p : FsPath) : Bool := fs.dirs.contains p

/-- `FsPath.exists()`: true for a regular file or a directory. -/
def FS.pathExists (fs : FS) (p : FsPath) : Bool := fs.isFile p || fs.isDir p

def FS.readFile (fs : FS) (p : FsPath) : Option String := lookupAssoc fs.files p

/-- `path.write_text(c)`: create or overwrite the file at `p`. -/
def FS.writeFile (fs : FS) (p : FsPath) (c : String) : FS :=
  { fs with files := updateAssoc fs.files p c }

/-- The nonempty prefixes of a path: the path itself and its ancestors. -/
def pathPrefixes (p : FsPath) : List FsPath :=
  (List.range p.length).map (fun k => p.take (k + 1))

/-- `path.mkdir(parents=True, exist_ok=True)`: create the directory and all
missing ancestors; already-existing directories are left alone and cause no
failure. -/
def FS.mkdirParents (fs : FS) (p : FsPath) : FS :=
  { fs with dirs := fs.dirs ++ (pathPrefixes p).filter (fun q => !fs.dirs.contains q) }

/-- Oracle for the external library and the OS on one conversion run:
`openResult` is what `pymupdf.open` reports for the source document (its page
count, or the error it raises); `render p` is what
`pymupdf4llm.to_markdown(path, pages=[p], ...)` returns for page `p` (or the
error it raises); `writeFails p` says whether the OS write of page `p`'s
output file raises. -/
structure Doc where
  openResult : Except String Nat
  render : Nat → Except String String
  writeFails : Nat → Bool

/-- The three dynamic exception kinds observable from
`convert_pdf_to_markdown`: `FileNotFoundError`, `ValueError`, and the
catch-all for everything else. -/
inductive Err where
  | fileNotFound (msg : String)
  | valueError (msg : String)
  | conversionFailure (msg : String)
deriving DecidableEq, Repr

def Err.isValidation : Err → Bool
  | .fileNotFound _ => true
  | .valueError _ => true
  | .conversionFailure _ => false

def isConvFailure : Option Err → Bool
  | some (.conversionFailure _) => true
  | _ => false

def hasValidationErr : Option Err → Bool
  | some e => e.isValidation
  | none => false

/-- The observable outcome of one call: the filesystem afterwards, the
returned list of output paths (`none` when an exception propagated), the
lines printed to stdout, and the exception if any. -/
structure Result where
  fs : FS
  ret : Option (List FsPath)
  stdout : List String
  err : Option Err
deriving DecidableEq, Repr

/-- `f"{base_name}_page_{page_num + 1:03d}.md"` for 0-based page `p`. -/
def mdFilename (base : String) (p : Nat) : String :=
  base ++ "_page_" ++ pad3 (p + 1) ++ ".md"

def pagePath (od : FsPath) (base : String) (p : Nat) : FsPath :=
  od ++ [mdFilename base p]

/-- `print(f"  Page {page_num + 1}/{total_pages} -> {output_filename}")`. -/
def progressLine (base : String) (total p : Nat) : String :=
  "  Page " ++ natDec (p + 1) ++ "/" ++ natDec total ++ " -> " ++ mdFilename base p

def pageText (doc : Doc) (p : Nat) : String :=
  match doc.render p with
  | .ok t => t
  | .error _ => ""

/-- Page `p` neither fails to render nor fails to write. -/
def pageOk (doc : Doc) (p : Nat) : Bool :=
  (doc.render p).isOk && !doc.writeFails p

/-- The per-page loop (lines 83–100 of the source): for each remaining page,
render it, write the markdown to the page's file, record the path and print
the progress line; the first error aborts the loop, keeping the filesystem,
recorded paths and printed lines as they stand. -/
def runPages (doc : Doc) (od : FsPath) (base : String) (total : Nat) :
    List Nat → FS → List FsPath → List String → FS × List FsPath × List String × Option Err
  | [], fs, outs, so => (fs, outs, so, none)
  | p :: rest, fs, outs, so =>
    match doc.render p with
    | .error e => (fs, outs, so, some (.conversionFailure e))
    | .ok text =>
      if doc.writeFails p then
        (fs, outs, so, some (.conversionFailure "write failed"))
      else
        runPages doc od base total rest
          (fs.writeFile (pagePath od base p) text)
          (outs ++ [pagePath od base p])
          (so ++ [progressLine base total p])

/-- `output_dir` resolution (lines 57–61): the caller's directory if given,
else the source file's parent. -/
def resolveOutputDir (pdfPath : FsPath) : Option FsPath → FsPath
  | none => pdfPath.parent
  | some d => d

/-- The filesystem effect of resolving `output_dir` (lines 57–61): the
caller-supplied directory is created with `parents=True, exist_ok=True`;
when it is absent nothing is created. -/
def mkOutputDir (fs : FS) : Option FsPath → FS
  | none => fs
  | some d => fs.mkdirParents d

/-- The four informational lines printed before the loop (lines 75–78). -/
def headerLines (pdfPath outputDir : FsPath) (total : Nat) : List String :=
  ["Converting: " ++ pdfPath.toStr,
   "Total pages: " ++ natDec total,
   "Output directory: " ++ outputDir.toStr,
   "Images directory: " ++ (outputDir ++ ["images"]).toStr]

/-- The final summary line (line 102). -/
def summaryLine (total : Nat) : String :=
  "Successfully converted " ++ natDec total ++ " pages."

/-- The whole of `convert_pdf_to_markdown` (lines 48–103): validate
existence then extension, resolve and create the output directory, derive
the base name, open the document for its page count, create the images
directory, print the four header lines, run the per-page loop, print the
summary and return the output paths. -/
def convert_pdf_to_markdown (doc : Doc) (fs : FS) (pdfPath : FsPath)
    (outputDir? : Option FsPath) : Result :=
  if !fs.pathExists pdfPath then
    ⟨fs, none, [], some (.fileNotFound ("PDF file not found: " ++ pdfPath.toStr))⟩
  else if !(lowerStr (nameSuffix pdfPath.name) == ".pdf") then
    ⟨fs, none, [], some (.valueError ("File does not appear to be a PDF: " ++ pdfPath.toStr))⟩
  else
    let outputDir := resolveOutputDir pdfPath outputDir?
    let fs1 := mkOutputDir fs outputDir?
    let baseName := nameStem pdfPath.name
    match (if fs1.isFile pdfPath then doc.openResult
           else Except.error ("cannot open document: " ++ pdfPath.toStr)) with
    | .error e => ⟨fs1, none, [], some (.conversionFailure e)⟩
    | .ok totalPages =>
      let imagesDir := outputDir ++ ["images"]
      let fs2 := fs1.mkdirParents imagesDir
      match runPages doc outputDir baseName totalPages (List.range totalPages) fs2 []
          (headerLines pdfPath outputDir totalPages) with
      | (fs3, outs, so, none) => ⟨fs3, some outs, so ++ [summaryLine totalPages], none⟩
      | (fs3, _, so, some e) => ⟨fs3, none, so, some e⟩

/-- Write all the given pages' files in order (the cumulative filesystem
effect of an error-free run of the loop). -/
def writeAll (doc : Doc) (od : FsPath) (base : String) (fs : FS) (pages : List Nat) : FS :=
  pages.foldl (fun f p => f.writeFile (pagePath od base p) (pageText doc p)) fs

/-! ## Concrete fixtures for closed runs -/

/-- A well-behaved two-page document oracle. -/
def docA : Doc :=
  ⟨.ok 2, fun p => .ok ("content of page " ++ natDec p), fun _ => false⟩

/-- A two-page oracle whose renderer returns different text than `docA`. -/
def docB : Doc :=
  ⟨.ok 2, fun p => .ok ("entirely different text " ++ natDec p), fun _ => false⟩

/-- A three-page oracle whose rendering call for page index 1 raises. -/
def docFail : Doc :=
  ⟨.ok 3, fun p => if p = 1 then .error "render broke" else .ok "txt", fun _ => false⟩

/-- An oracle for a zero-page document. -/
def docZero : Doc := ⟨.ok 0, fun _ => .ok "", fun _ => false⟩

/-- A filesystem holding the regular file `d/a.pdf` inside directory `d`. -/
def fsA : FS := ⟨[(["d", "a.pdf"], "%PDF")], [["d"]]⟩

/-- A filesystem holding `d/Report.PDF` (mixed-case extension). -/
def fsUpper : FS := ⟨[(["d", "Report.PDF"], "%PDF")], [["d"]]⟩

/-- A filesystem holding `d/report.txt`, whose content is irrelevant. -/
def fsTxt : FS := ⟨[(["d", "report.txt"], "actually binary PDF bytes")], [["d"]]⟩

/-- A filesystem whose only entry at `x.pdf` is a DIRECTORY, not a file. -/
def fsDirPdf : FS := ⟨[], [["x.pdf"]]⟩

/-- A filesystem holding a regular file whose entire name is `.pdf`. -/
def fsDotPdf : FS := ⟨[([".pdf"], "%PDF")], []⟩

/-- `fsA` plus an existing output directory `out` that already holds an
unrelated file `out/keep.txt`. -/
def fsKeep : FS :=
  ⟨[(["d", "a.pdf"], "%PDF"), (["out", "keep.txt"], "precious")], [["d"], ["out"]]⟩

/-! ## Decimal formatting lemmas -/

lemma digitChar_val {n : Nat} (h : n < 10) : (Nat.digitChar n).toNat - 48 = n := by
  interval_cases n <;> rfl

lemma decodeDec_append (ds : List Char) (d : Char) :
    decodeDec (ds ++ [d]) = decodeDec ds * 10 + (d.toNat - 48) := by
  unfold decodeDec
  rw [List.foldl_append]
  rfl

lemma decodeDec_natDigitsAux : ∀ fuel n, n < fuel → decodeDec (natDigitsAux fuel n) = n := by
  intro fuel
  induction fuel with
  | zero => intro n h; omega
  | succ fuel ih =>
    intro n h
    by_cases h10 : n < 10
    · simp only [natDigitsAux, if_pos h10]
      show 0 * 10 + ((Nat.digitChar n).toNat - 48) = n
      rw [digitChar_val h10]
      omega
    · simp only [natDigitsAux, if_neg h10]
      rw [decodeDec_append, ih (n / 10) (by omega), digitChar_val (Nat.mod_lt n (by omega))]
      omega

lemma decodeDec_natDigits (n : Nat) : decodeDec (natDigits n) = n :=
  decodeDec_natDigitsAux (n + 1) n (Nat.lt_succ_self n)

lemma foldl_dec_zeros (k : Nat) :
    List.foldl (fun a c => a * 10 + (c.toNat - 48)) 0 (List.replicate k '0') = 0 := by
  induction k with
  | zero => rfl
  | succ k ih => simpa [List.replicate_succ] using ih

lemma decodeDec_pad3Chars (n : Nat) : decodeDec (pad3Chars n) = n := by
  unfold pad3Chars decodeDec
  rw [List.foldl_append, foldl_dec_zeros]
  exact decodeDec_natDigits n

lemma pad3Chars_injective : Function.Injective pad3Chars := by
  intro m n h
  have hm := decodeDec_pad3Chars m
  rw [h, decodeDec_pad3Chars] at hm
  omega

lemma pad3Chars_length (n : Nat) : 3 ≤ (pad3Chars n).length := by
  unfold pad3Chars
  rw [List.length_append, List.length_replicate]
  omega

lemma pad3_data (n : Nat) : (pad3 n).data = pad3Chars n := rfl

lemma pad3_injective : Function.Injective pad3 := by
  intro m n h
  exact pad3Chars_injective (congrArg String.data h)

/-! ## Filename and path lemmas -/

lemma mdFilename_inj (base : String) {p q : Nat} (h : mdFilename base p = mdFilename base q) :
    p = q := by
  unfold mdFilename at h
  have hd := congrArg String.data h
  simp only [String.data_append, List.append_assoc] at hd
  have h1 := List.append_cancel_left hd
  have h2 := List.append_cancel_left h1
  have h3 : (pad3 (p + 1)).data = (pad3 (q + 1)).data := List.append_cancel_right h2
  rw [pad3_data, pad3_data] at h3
  have h4 := pad3Chars_injective h3
  omega

lemma pagePath_inj (od : FsPath) (base : String) {p q : Nat}
    (h : pagePath od base p = pagePath od base q) : p = q := by
  unfold pagePath at h
  have h1 := List.append_cancel_left h
  have h2 : mdFilename base p = mdFilename base q := by injection h1
  exact mdFilename_inj base h2

lemma pagePath_injective (od : FsPath) (base : String) :
    Function.Injective (pagePath od base) := fun _ _ h => pagePath_inj od base h

/-! ## Filesystem lemmas -/

lemma lookupAssoc_updateAssoc (l : List (FsPath × String)) (p : FsPath) (c : String)
    (q : FsPath) :
    lookupAssoc (updateAssoc l p c) q = if q = p then some c else lookupAssoc l q := by
  induction l with
  | nil =>
    show (if p = q then some c else none) = if q = p then some c else none
    by_cases h : q = p
    · rw [if_pos h.symm, if_pos h]
    · rw [if_neg (fun h2 : p = q => h h2.symm), if_neg h]
  | cons e rest ih =>
    obtain ⟨a, b⟩ := e
    simp only [updateAssoc]
    by_cases hap : a = p
    · subst hap
      rw [if_pos rfl]
      show (if a = q then some c else lookupAssoc rest q) =
        if q = a then some c else if a = q then some b else lookupAssoc rest q
      by_cases hq : a = q
      · rw [if_pos hq, if_pos hq.symm]
      · rw [if_neg hq, if_neg (fun h2 : q = a => hq h2.symm), if_neg hq]
    · rw [if_neg hap]
      show (if a = q then some b else lookupAssoc (updateAssoc rest p c) q) =
        if q = p then some c else if a = q then some b else lookupAssoc rest q
      by_cases haq : a = q
      · rw [if_pos haq, if_neg (fun h2 : q = p => hap (haq.trans h2)), if_pos haq]
      · rw [if_neg haq, ih, if_neg haq]

lemma readFile_writeFile (fs : FS) (p : FsPath) (c : String) (q : FsPath) :
    (fs.writeFile p c).readFile q = if q = p then some c else fs.readFile q := by
  simp [FS.readFile, FS.writeFile, lookupAssoc_updateAssoc]

lemma isFile_writeFile_of (fs : FS) (p : FsPath) (c : String) (q : FsPath)
    (h : fs.isFile q = true) : (fs.writeFile p c).isFile q = true := by
  simp only [FS.isFile, FS.writeFile, lookupAssoc_updateAssoc]
  by_cases hq : q = p <;> simp [hq]
  exact h

lemma dirs_writeFile (fs : FS) (p : FsPath) (c : String) :
    (fs.writeFile p c).dirs = fs.dirs := rfl

lemma files_mkdirParents (fs : FS) (d : FsPath) : (fs.mkdirParents d).files = fs.files := rfl

lemma readFile_mkdirParents (fs : FS) (d q : FsPath) :
    (fs.mkdirParents d).readFile q = fs.readFile q := rfl

lemma isFile_mkdirParents (fs : FS) (d q : FsPath) :
    (fs.mkdirParents d).isFile q = fs.isFile q := rfl

lemma mem_dirs_mkdirParents (fs : FS) (d q : FsPath) :
    q ∈ (fs.mkdirParents d).dirs ↔ q ∈ fs.dirs ∨ q ∈ pathPrefixes d := by
  simp only [FS.mkdirParents, List.mem_append, List.mem_filter]
  constructor
  · rintro (h | ⟨h, _⟩)
    · exact Or.inl h
    · exact Or.inr h
  · rintro (h | h)
    · exact Or.inl h
    · by_cases hd : q ∈ fs.dirs
      · exact Or.inl hd
      · exact Or.inr ⟨h, by simpa using hd⟩

lemma mkdirParents_of_present (fs : FS) (d : FsPath)
    (h : ∀ q ∈ pathPrefixes d, q ∈ fs.dirs) : fs.mkdirParents d = fs := by
  unfold FS.mkdirParents
  have : (pathPrefixes d).filter (fun q => !fs.dirs.contains q) = [] := by
    rw [List.filter_eq_nil_iff]
    intro q hq
    simpa using h q hq
  rw [this, List.append_nil]

lemma self_mem_pathPrefixes (p : FsPath) (h : p ≠ []) : p ∈ pathPrefixes p := by
  have hl : 0 < p.length := List.length_pos.mpr h
  refine List.mem_map.mpr ⟨p.length - 1, List.mem_range.mpr (by omega), ?_⟩
  rw [show p.length - 1 + 1 = p.length from by omega]
  exact List.take_length p

lemma pathExists_of_isFile (fs : FS) (p : FsPath) (h : fs.isFile p = true) :
    fs.pathExists p = true := by
  simp [FS.pathExists, h]

/-! ## `writeAll` lemmas -/

lemma writeAll_nil (doc : Doc) (od : FsPath) (base : String) (fs : FS) :
    writeAll doc od base fs [] = fs := rfl

lemma writeAll_cons (doc : Doc) (od : FsPath) (base : String) (fs : FS) (p : Nat)
    (rest : List Nat) :
    writeAll doc od base fs (p :: rest) =
      writeAll doc od base (fs.writeFile (pagePath od base p) (pageText doc p)) rest := rfl

lemma dirs_writeAll (doc : Doc) (od : FsPath) (base : String) (pages : List Nat) (fs : FS) :
    (writeAll doc od base fs pages).dirs = fs.dirs := by
  induction pages generalizing fs with
  | nil => rfl
  | cons p rest ih => rw [writeAll_cons, ih, dirs_writeFile]

lemma readFile_writeAll_notMem (doc : Doc) (od : FsPath) (base : String)
    (pages : List Nat) (fs : FS) (q : FsPath)
    (h : ∀ p ∈ pages, q ≠ pagePath od base p) :
    (writeAll doc od base fs pages).readFile q = fs.readFile q := by
  induction pages generalizing fs with
  | nil => rfl
  | cons p rest ih =>
    rw [writeAll_cons, ih _ (fun r hr => h r (List.mem_cons_of_mem p hr)),
      readFile_writeFile, if_neg (h p (List.mem_cons_self p rest))]

lemma isFile_writeAll_of (doc : Doc) (od : FsPath) (base : String)
    (pages : List Nat) (fs : FS) (q : FsPath) (h : fs.isFile q = true) :
    (writeAll doc od base fs pages).isFile q = true := by
  induction pages generalizing fs with
  | nil => exact h
  | cons p rest ih => exact writeAll_cons .. ▸ ih _ (isFile_writeFile_of _ _ _ _ h)

lemma readFile_writeAll_mem (doc : Doc) (od : FsPath) (base : String)
    (pages : List Nat) (fs : FS) (j : Nat) (hj : j ∈ pages)
    (hn : (pages.map (pagePath od base)).Nodup) :
    (writeAll doc od base fs pages).readFile (pagePath od base j) =
      some (pageText doc j) := by
  induction pages generalizing fs with
  | nil => cases hj
  | cons p rest ih =>
    rw [List.map_cons, List.nodup_cons] at hn
    rcases List.mem_cons.mp hj with hjp | hjr
    · subst hjp
      rw [writeAll_cons, readFile_writeAll_notMem]
      · rw [readFile_writeFile, if_pos rfl]
      · intro r hr heq
        exact hn.1 (heq ▸ List.mem_map_of_mem (pagePath od base) hr)
    · rw [writeAll_cons]
      exact ih _ hjr hn.2

/-! ## Loop characterization -/

lemma pageOk_render (doc : Doc) (p : Nat) (h : pageOk doc p = true) :
    doc.render p = .ok (pageText doc p) ∧ doc.writeFails p = false := by
  unfold pageOk at h
  rw [Bool.and_eq_true, Bool.not_eq_true'] at h
  cases hr : doc.render p with
  | error e => rw [hr] at h; simp [Except.isOk, Except.toBool] at h
  | ok t => exact ⟨by simp [pageText, hr], h.2⟩

lemma runPages_ok (doc : Doc) (od : FsPath) (base : String) (total : Nat)
    (pages : List Nat) (fs : FS) (outs : List FsPath) (so : List String)
    (h : ∀ p ∈ pages, pageOk doc p = true) :
    runPages doc od base total pages fs outs so =
      (writeAll doc od base fs pages,
       outs ++ pages.map (pagePath od base),
       so ++ pages.map (progressLine base total),
       none) := by
  induction pages generalizing fs outs so with
  | nil => simp [runPages, writeAll_nil]
  | cons p rest ih =>
    obtain ⟨hr, hw⟩ := pageOk_render doc p (h p (List.mem_cons_self p rest))
    rw [runPages, hr, hw]
    simp only [Bool.false_eq_true, if_false]
    rw [ih _ _ _ (fun r hrm => h r (List.mem_cons_of_mem p hrm)), writeAll_cons]
    simp [List.append_assoc]

lemma runPages_fail (doc : Doc) (od : FsPath) (base : String) (total : Nat)
    (good : List Nat) (p : Nat) (rest : List Nat) (fs : FS) (outs : List FsPath)
    (so : List String)
    (hg : ∀ q ∈ good, pageOk doc q = true) (hp : pageOk doc p = false) :
    ∃ m, runPages doc od base total (good ++ p :: rest) fs outs so =
      (writeAll doc od base fs good,
       outs ++ good.map (pagePath od base),
       so ++ good.map (progressLine base total),
       some (.conversionFailure m)) := by
  induction good generalizing fs outs so with
  | nil =>
    cases hr : doc.render p with
    | error e =>
      refine ⟨e, ?_⟩
      rw [List.nil_append, runPages, hr]
      simp [writeAll_nil]
    | ok t =>
      have hw : doc.writeFails p = true := by
        unfold pageOk at hp
        rw [hr] at hp
        simpa [Except.isOk, Except.toBool] using hp
      refine ⟨"write failed", ?_⟩
      rw [List.nil_append, runPages, hr, hw]
      simp [writeAll_nil]
  | cons q qs ih =>
    obtain ⟨hr, hw⟩ := pageOk_render doc q (hg q (List.mem_cons_self q qs))
    obtain ⟨m, hm⟩ := ih
      (fs.writeFile (pagePath od base q) (pageText doc q))
      (outs ++ [pagePath od base q]) (so ++ [progressLine base total q])
      (fun r hrm => hg r (List.mem_cons_of_mem q hrm))
    refine ⟨m, ?_⟩
    rw [List.cons_append, runPages, hr, hw]
    simp only [Bool.false_eq_true, if_false]
    rw [hm, writeAll_cons]
    simp [List.append_assoc]

/-! ## `convert_pdf_to_markdown` characterization -/

lemma isFile_mkOutputDir (fs : FS) (od? : Option FsPath) (q : FsPath) :
    (mkOutputDir fs od?).isFile q = fs.isFile q := by
  cases od? <;> rfl

lemma readFile_mkOutputDir (fs : FS) (od? : Option FsPath) (q : FsPath) :
    (mkOutputDir fs od?).readFile q = fs.readFile q := by
  cases od? <;> rfl

lemma files_mkOutputDir (fs : FS) (od? : Option FsPath) :
    (mkOutputDir fs od?).files = fs.files := by
  cases od? <;> rfl

lemma convert_notFound (doc : Doc) (fs : FS) (pdfPath : FsPath) (od? : Option FsPath)
    (h : fs.pathExists pdfPath = false) :
    convert_pdf_to_markdown doc fs pdfPath od? =
      ⟨fs, none, [], some (.fileNotFound ("PDF file not found: " ++ pdfPath.toStr))⟩ := by
  unfold convert_pdf_to_markdown
  rw [h]
  rfl

lemma convert_badSuffix (doc : Doc) (fs : FS) (pdfPath : FsPath) (od? : Option FsPath)
    (h1 : fs.pathExists pdfPath = true)
    (h2 : lowerStr (nameSuffix pdfPath.name) ≠ ".pdf") :
    convert_pdf_to_markdown doc fs pdfPath od? =
      ⟨fs, none, [], some (.valueError ("File does not appear to be a PDF: " ++ pdfPath.toStr))⟩ := by
  unfold convert_pdf_to_markdown
  rw [h1]
  have : (lowerStr (nameSuffix pdfPath.name) == ".pdf") = false := by
    simpa using h2
  rw [this]
  rfl

lemma convert_openFail (doc : Doc) (fs : FS) (pdfPath : FsPath) (od? : Option FsPath)
    (hex : fs.pathExists pdfPath = true)
    (hsuf : lowerStr (nameSuffix pdfPath.name) = ".pdf")
    (hnofile : fs.isFile pdfPath = false) :
    convert_pdf_to_markdown doc fs pdfPath od? =
      ⟨mkOutputDir fs od?, none, [],
       some (.conversionFailure ("cannot open document: " ++ pdfPath.toStr))⟩ := by
  unfold convert_pdf_to_markdown
  rw [hex, hsuf]
  have hfile1 : (mkOutputDir fs od?).isFile pdfPath = false := by
    rw [isFile_mkOutputDir]; exact hnofile
  simp only [Bool.not_true, Bool.false_eq_true, if_false, beq_self_eq_true, hfile1]

lemma convert_ok (doc : Doc) (fs : FS) (pdfPath : FsPath) (od? : Option FsPath) (N : Nat)
    (hex : fs.pathExists pdfPath = true)
    (hsuf : lowerStr (nameSuffix pdfPath.name) = ".pdf")
    (hfile : fs.isFile pdfPath = true)
    (hopen : doc.openResult = .ok N)
    (hpages : ∀ p, p < N → pageOk doc p = true) :
    convert_pdf_to_markdown doc fs pdfPath od? =
      ⟨writeAll doc (resolveOutputDir pdfPath od?) (nameStem pdfPath.name)
          ((mkOutputDir fs od?).mkdirParents (resolveOutputDir pdfPath od? ++ ["images"]))
          (List.range N),
       some ((List.range N).map (pagePath (resolveOutputDir pdfPath od?) (nameStem pdfPath.name))),
       headerLines pdfPath (resolveOutputDir pdfPath od?) N
         ++ (List.range N).map (progressLine (nameStem pdfPath.name) N)
         ++ [summaryLine N],
       none⟩ := by
  unfold convert_pdf_to_markdown
  rw [hex, hsuf]
  have hfile1 : (mkOutputDir fs od?).isFile pdfPath = true := by
    rw [isFile_mkOutputDir]; exact hfile
  simp only [Bool.not_true, Bool.false_eq_true, if_false, beq_self_eq_true, hfile1, if_true,
    hopen]
  rw [runPages_ok doc _ _ N (List.range N) _ [] _
    (fun p hp => hpages p (List.mem_range.mp hp))]
  simp [List.append_assoc]

lemma convert_fail (doc : Doc) (fs : FS) (pdfPath : FsPath) (od? : Option FsPath) (N i : Nat)
    (hex : fs.pathExists pdfPath = true)
    (hsuf : lowerStr (nameSuffix pdfPath.name) = ".pdf")
    (hfile : fs.isFile pdfPath = true)
    (hopen : doc.openResult = .ok N)
    (hi : i < N)
    (hpages : ∀ p, p < i → pageOk doc p = true)
    (hbad : pageOk doc i = false) :
    ∃ m, convert_pdf_to_markdown doc fs pdfPath od? =
      ⟨writeAll doc (resolveOutputDir pdfPath od?) (nameStem pdfPath.name)
          ((mkOutputDir fs od?).mkdirParents (resolveOutputDir pdfPath od? ++ ["images"]))
          (List.range i),
       none,
       headerLines pdfPath (resolveOutputDir pdfPath od?) N
         ++ (List.range i).map (progressLine (nameStem pdfPath.name) N),
       some (.conversionFailure m)⟩ := by
  have hsplit : List.range N = List.range i ++ i :: List.range' (i + 1) (N - i - 1) := by
    rw [List.range_eq_range' N, List.range_eq_range' i]
    have h1 := List.range'_append 0 i (N - i) 1
    rw [show (0 : Nat) + 1 * i = i from by omega,
      show N - i + i = N from by omega] at h1
    rw [← h1]
    congr 1
    rw [show N - i = (N - i - 1) + 1 from by omega]
    rfl
  obtain ⟨m, hm⟩ := runPages_fail doc (resolveOutputDir pdfPath od?) (nameStem pdfPath.name) N
    (List.range i) i (List.range' (i + 1) (N - i - 1))
    ((mkOutputDir fs od?).mkdirParents (resolveOutputDir pdfPath od? ++ ["images"]))
    [] (headerLines pdfPath (resolveOutputDir pdfPath od?) N)
    (fun q hq => hpages q (List.mem_range.mp hq)) hbad
  refine ⟨m, ?_⟩
  unfold convert_pdf_to_markdown
  rw [hex, hsuf]
  have hfile1 : (mkOutputDir fs od?).isFile pdfPath = true := by
    rw [isFile_mkOutputDir]; exact hfile
  simp only [Bool.not_true, Bool.false_eq_true, if_false, beq_self_eq_true, hfile1, if_true,
    hopen]
  rw [hsplit, hm]

lemma convert_openErr (doc : Doc) (fs : FS) (pdfPath : FsPath) (od? : Option FsPath)
    (e : String)
    (hex : fs.pathExists pdfPath = true)
    (hsuf : lowerStr (nameSuffix pdfPath.name) = ".pdf")
    (hfile : fs.isFile pdfPath = true)
    (hopen : doc.openResult = .error e) :
    convert_pdf_to_markdown doc fs pdfPath od? =
      ⟨mkOutputDir fs od?, none, [], some (.conversionFailure e)⟩ := by
  unfold convert_pdf_to_markdown
  rw [hex, hsuf]
  have hfile1 : (mkOutputDir fs od?).isFile pdfPath = true := by
    rw [isFile_mkOutputDir]; exact hfile
  simp only [Bool.not_true, Bool.false_eq_true, if_false, beq_self_eq_true, hfile1, if_true,
    hopen]

/-- Either every page below `N` renders and writes cleanly, or there is a
first page that does not. -/
lemma exists_min_bad (doc : Doc) (N : Nat) :
    (∀ p, p < N → pageOk doc p = true) ∨
      ∃ i, i < N ∧ pageOk doc i = false ∧ ∀ p, p < i → pageOk doc p = true := by
  induction N with
  | zero => exact Or.inl (fun p hp => absurd hp (by omega))
  | succ N ih =>
    rcases ih with h | ⟨i, hi, hbad, hmin⟩
    · by_cases hN : pageOk doc N = true
      · refine Or.inl (fun p hp => ?_)
        rcases Nat.lt_succ_iff_lt_or_eq.mp hp with h1 | h1
        · exact h p h1
        · exact h1 ▸ hN
      · exact Or.inr ⟨N, Nat.lt_succ_self N, by simpa using hN, h⟩
    · exact Or.inr ⟨i, by omega, hbad, hmin⟩

/-- Once both validation checks pass, the run can no longer produce a
`FileNotFoundError` or a `ValueError`: every later failure is the generic
conversion failure. -/
lemma convert_noValidation (doc : Doc) (fs : FS) (pdfPath : FsPath) (od? : Option FsPath)
    (hex : fs.pathExists pdfPath = true)
    (hsuf : lowerStr (nameSuffix pdfPath.name) = ".pdf") :
    hasValidationErr (convert_pdf_to_markdown doc fs pdfPath od?).err = false := by
  by_cases hfile : fs.isFile pdfPath = true
  · cases hopen : doc.openResult with
    | error e => rw [convert_openErr doc fs pdfPath od? e hex hsuf hfile hopen]; rfl
    | ok N =>
      rcases exists_min_bad doc N with h | ⟨i, hi, hbad, hmin⟩
      · rw [convert_ok doc fs pdfPath od? N hex hsuf hfile hopen h]; rfl
      · obtain ⟨m, hm⟩ := convert_fail doc fs pdfPath od? N i hex hsuf hfile hopen hi hmin hbad
        rw [hm]
        rfl
  · rw [convert_openFail doc fs pdfPath od? hex hsuf (by simpa using hfile)]
    rfl

/-! ## The claims -/

/-- C1: for a document with `N` pages whose rendering and writes succeed,
`convert_pdf_to_markdown` returns exactly `N` output paths, the entry at
index `i` being `outputDir / {base}_page_{i+1}.md` with the page number
rendered by `pad3` (zero-padded to at least 3 digits, widened and never
truncated — witnessed by `decodeDec` recovering the page number), in
ascending page order, and the paths are pairwise distinct for any `N`. -/
theorem claim_C1 (doc : Doc) (fs : FS) (pdfPath : FsPath) (od? : Option FsPath) (N : Nat)
    (hex : fs.pathExists pdfPath = true)
    (hsuf : lowerStr (nameSuffix pdfPath.name) = ".pdf")
    (hfile : fs.isFile pdfPath = true)
    (hopen : doc.openResult = .ok N)
    (hpages : ∀ p, p < N → pageOk doc p = true) :
    (convert_pdf_to_markdown doc fs pdfPath od?).ret =
        some ((List.range N).map
          (pagePath (resolveOutputDir pdfPath od?) (nameStem pdfPath.name))) ∧
      ((List.range N).map
          (pagePath (resolveOutputDir pdfPath od?) (nameStem pdfPath.name))).length = N ∧
      ((List.range N).map
          (pagePath (resolveOutputDir pdfPath od?) (nameStem pdfPath.name))).Nodup ∧
      (∀ i, i < N →
        pagePath (resolveOutputDir pdfPath od?) (nameStem pdfPath.name) i =
          resolveOutputDir pdfPath od? ++
            [nameStem pdfPath.name ++ "_page_" ++ pad3 (i + 1) ++ ".md"]) ∧
      (∀ n, 3 ≤ (pad3 n).length ∧ decodeDec (pad3 n).data = n) := by
  refine ⟨?_, ?_, ?_, ?_, ?_⟩
  · rw [convert_ok doc fs pdfPath od? N hex hsuf hfile hopen hpages]
  · rw [List.length_map, List.length_range]
  · exact List.Nodup.map (pagePath_injective _ _) (List.nodup_range N)
  · intro i _
    rfl
  · intro n
    exact ⟨pad3Chars_length n, decodeDec_pad3Chars n⟩

theorem claim_C1_witness :
    (convert_pdf_to_markdown docA fsA ["d", "a.pdf"] (some ["out"])).ret =
        some [["out", "a_page_001.md"], ["out", "a_page_002.md"]] ∧
      [["out", "a_page_001.md"], ["out", "a_page_002.md"]].Nodup := by
  have h := claim_C1 docA fsA ["d", "a.pdf"] (some ["out"]) 2
    (by decide) (by decide) (by decide) rfl (fun p _ => rfl)
  refine ⟨?_, by decide⟩
  rw [h.1]
  decide

/-- C2: validation happens in order — first existence, then extension —
with no filesystem change and no output before both checks pass: a missing
path yields `FileNotFoundError` with the path in the message, an existing
path with a non-`.pdf` extension yields `ValueError` with the path in the
message, and in both cases the returned filesystem is exactly the input
filesystem and nothing was printed. -/
theorem claim_C2 (doc : Doc) (fs : FS) (pdfPath : FsPath) (od? : Option FsPath) :
    (fs.pathExists pdfPath = false →
      convert_pdf_to_markdown doc fs pdfPath od? =
        ⟨fs, none, [], some (.fileNotFound ("PDF file not found: " ++ pdfPath.toStr))⟩) ∧
    (fs.pathExists pdfPath = true → lowerStr (nameSuffix pdfPath.name) ≠ ".pdf" →
      convert_pdf_to_markdown doc fs pdfPath od? =
        ⟨fs, none, [],
         some (.valueError ("File does not appear to be a PDF: " ++ pdfPath.toStr))⟩) :=
  ⟨convert_notFound doc fs pdfPath od?, convert_badSuffix doc fs pdfPath od?⟩

theorem claim_C2_witness :
    convert_pdf_to_markdown docA fsA ["d", "missing.pdf"] (some ["out"]) =
        ⟨fsA, none, [], some (.fileNotFound "PDF file not found: d/missing.pdf")⟩ ∧
      convert_pdf_to_markdown docA fsTxt ["d", "report.txt"] (some ["out"]) =
        ⟨fsTxt, none, [],
         some (.valueError "File does not appear to be a PDF: d/report.txt")⟩ := by
  constructor
  · rw [(claim_C2 docA fsA ["d", "missing.pdf"] (some ["out"])).1 (by decide)]
    decide
  · rw [(claim_C2 docA fsTxt ["d", "report.txt"] (some ["out"])).2 (by decide) (by decide)]
    decide

/-- C3: the extension check is case-insensitive — an existing path whose
suffix lowercases to `.pdf` passes both validation checks (the result can
no longer be a `FileNotFoundError` or `ValueError`), while an existing path
whose suffix does not fails with `ValueError` regardless of the file's
content (the theorem quantifies over every filesystem, hence over every
content the file may have). -/
theorem claim_C3 (doc : Doc) (fs : FS) (pdfPath : FsPath) (od? : Option FsPath) :
    (fs.pathExists pdfPath = true → lowerStr (nameSuffix pdfPath.name) = ".pdf" →
      hasValidationErr (convert_pdf_to_markdown doc fs pdfPath od?).err = false) ∧
    (fs.pathExists pdfPath = true → lowerStr (nameSuffix pdfPath.name) ≠ ".pdf" →
      (convert_pdf_to_markdown doc fs pdfPath od?).err =
        some (.valueError ("File does not appear to be a PDF: " ++ pdfPath.toStr))) := by
  constructor
  · intro hex hsuf
    exact convert_noValidation doc fs pdfPath od? hex hsuf
  · intro hex hsuf
    rw [convert_badSuffix doc fs pdfPath od? hex hsuf]

theorem claim_C3_witness :
    hasValidationErr (convert_pdf_to_markdown docA fsUpper ["d", "Report.PDF"] none).err
        = false ∧
      (convert_pdf_to_markdown docA fsTxt ["d", "report.txt"] none).err =
        some (.valueError "File does not appear to be a PDF: d/report.txt") := by
  constructor
  · exact (claim_C3 docA fsUpper ["d", "Report.PDF"] none).1 (by decide) (by decide)
  · rw [(claim_C3 docA fsTxt ["d", "report.txt"] none).2 (by decide) (by decide)]
    decide

/-- C4: if page `i` is the first page whose rendering or write raises, the
run aborts at once with the catch-all error and returns no value; the files
written for pages `j < i` are still on disk with exactly their rendered
content (no rollback), and any path other than those — in particular every
later page's output path — is untouched relative to the input filesystem. -/
theorem claim_C4 (doc : Doc) (fs : FS) (pdfPath : FsPath) (od? : Option FsPath) (N i : Nat)
    (hex : fs.pathExists pdfPath = true)
    (hsuf : lowerStr (nameSuffix pdfPath.name) = ".pdf")
    (hfile : fs.isFile pdfPath = true)
    (hopen : doc.openResult = .ok N)
    (hi : i < N)
    (hpages : ∀ p, p < i → pageOk doc p = true)
    (hbad : pageOk doc i = false) :
    (convert_pdf_to_markdown doc fs pdfPath od?).ret = none ∧
      isConvFailure (convert_pdf_to_markdown doc fs pdfPath od?).err = true ∧
      (∀ j, j < i →
        (convert_pdf_to_markdown doc fs pdfPath od?).fs.readFile
            (pagePath (resolveOutputDir pdfPath od?) (nameStem pdfPath.name) j)
          = some (pageText doc j)) ∧
      (∀ q : FsPath,
        (∀ j, j < i → q ≠ pagePath (resolveOutputDir pdfPath od?) (nameStem pdfPath.name) j) →
        (convert_pdf_to_markdown doc fs pdfPath od?).fs.readFile q = fs.readFile q) := by
  obtain ⟨m, hm⟩ := convert_fail doc fs pdfPath od? N i hex hsuf hfile hopen hi hpages hbad
  rw [hm]
  refine ⟨rfl, rfl, ?_, ?_⟩
  · intro j hj
    exact readFile_writeAll_mem doc _ _ (List.range i) _ j (List.mem_range.mpr hj)
      (List.Nodup.map (pagePath_injective _ _) (List.nodup_range i))
  · intro q hq
    rw [readFile_writeAll_notMem doc _ _ (List.range i) _ q
      (fun p hp => hq p (List.mem_range.mp hp))]
    rw [readFile_mkdirParents, readFile_mkOutputDir]

theorem claim_C4_witness :
    (convert_pdf_to_markdown docFail fsA ["d", "a.pdf"] (some ["out"])).ret = none ∧
      isConvFailure (convert_pdf_to_markdown docFail fsA ["d", "a.pdf"] (some ["out"])).err
        = true ∧
      (convert_pdf_to_markdown docFail fsA ["d", "a.pdf"] (some ["out"])).fs.readFile
          ["out", "a_page_001.md"] = some "txt" ∧
      (convert_pdf_to_markdown docFail fsA ["d", "a.pdf"] (some ["out"])).fs.readFile
          ["out", "a_page_002.md"] = none := by
  have h := claim_C4 docFail fsA ["d", "a.pdf"] (some ["out"]) 3 1
    (by decide) (by decide) (by decide) rfl (by decide) (by decide) (by decide)
  refine ⟨h.1, h.2.1, ?_, ?_⟩
  · have h3 := h.2.2.1 0 (by decide)
    rw [show pagePath (resolveOutputDir ["d", "a.pdf"] (some ["out"]))
        (nameStem (FsPath.name ["d", "a.pdf"])) 0 = ["out", "a_page_001.md"] from by decide] at h3
    rw [h3]
    decide
  · have h4 := h.2.2.2 ["out", "a_page_002.md"] (by decide)
    rw [h4]
    decide

/-- C5: on a zero-page document the call succeeds, still creates the
supplied output directory and its `images` subdirectory, returns the empty
sequence, leaves the file store untouched (no Markdown file is written),
and the loop body never runs — the output consists of the header lines and
the summary only, with no per-page progress line. -/
theorem claim_C5 (doc : Doc) (fs : FS) (pdfPath : FsPath) (d : FsPath)
    (hex : fs.pathExists pdfPath = true)
    (hsuf : lowerStr (nameSuffix pdfPath.name) = ".pdf")
    (hfile : fs.isFile pdfPath = true)
    (hopen : doc.openResult = .ok 0)
    (hd : d ≠ []) :
    (convert_pdf_to_markdown doc fs pdfPath (some d)).err = none ∧
      (convert_pdf_to_markdown doc fs pdfPath (some d)).ret = some [] ∧
      (convert_pdf_to_markdown doc fs pdfPath (some d)).fs.files = fs.files ∧
      d ∈ (convert_pdf_to_markdown doc fs pdfPath (some d)).fs.dirs ∧
      d ++ ["images"] ∈ (convert_pdf_to_markdown doc fs pdfPath (some d)).fs.dirs ∧
      (convert_pdf_to_markdown doc fs pdfPath (some d)).stdout =
        headerLines pdfPath d 0 ++ [summaryLine 0] := by
  rw [convert_ok doc fs pdfPath (some d) 0 hex hsuf hfile hopen
    (fun p hp => absurd hp (by omega))]
  refine ⟨rfl, rfl, rfl, ?_, ?_, by simp [resolveOutputDir]⟩
  · show d ∈ ((fs.mkdirParents d).mkdirParents (d ++ ["images"])).dirs
    exact (mem_dirs_mkdirParents _ _ _).mpr
      (Or.inl ((mem_dirs_mkdirParents _ _ _).mpr (Or.inr (self_mem_pathPrefixes d hd))))
  · show d ++ ["images"] ∈ ((fs.mkdirParents d).mkdirParents (d ++ ["images"])).dirs
    exact (mem_dirs_mkdirParents _ _ _).mpr
      (Or.inr (self_mem_pathPrefixes _ (by simp)))

theorem claim_C5_witness :
    (convert_pdf_to_markdown docZero fsA ["d", "a.pdf"] (some ["out"])).err = none ∧
      (convert_pdf_to_markdown docZero fsA ["d", "a.pdf"] (some ["out"])).ret = some [] ∧
      (convert_pdf_to_markdown docZero fsA ["d", "a.pdf"] (some ["out"])).fs.files
        = fsA.files ∧
      ["out"] ∈ (convert_pdf_to_markdown docZero fsA ["d", "a.pdf"] (some ["out"])).fs.dirs ∧
      ["out", "images"]
        ∈ (convert_pdf_to_markdown docZero fsA ["d", "a.pdf"] (some ["out"])).fs.dirs := by
  have h := claim_C5 docZero fsA ["d", "a.pdf"] ["out"]
    (by decide) (by decide) (by decide) rfl (by decide)
  exact ⟨h.1, h.2.1, h.2.2.1, h.2.2.2.1, h.2.2.2.2.1⟩

/-- C6 (counterexample): `Path.exists()` is true for directories too, so an
existing DIRECTORY named `x.pdf` passes both validation checks; the run
does not stop with a validation error — it proceeds (the supplied output
directory is created) and fails only when opening the document, with the
catch-all conversion failure. -/
theorem claim_C6_counterexample :
    fsDirPdf.pathExists ["x.pdf"] = true ∧
      fsDirPdf.isFile ["x.pdf"] = false ∧
      hasValidationErr (convert_pdf_to_markdown docA fsDirPdf ["x.pdf"] (some ["out"])).err
        = false ∧
      isConvFailure (convert_pdf_to_markdown docA fsDirPdf ["x.pdf"] (some ["out"])).err
        = true ∧
      ["out"] ∈ (convert_pdf_to_markdown docA fsDirPdf ["x.pdf"] (some ["out"])).fs.dirs := by
  decide

/-- C6 (amended): the source checks only `Path.exists()`, never
`Path.is_file()`. A path that exists but is not a regular file (and whose
suffix still lowercases to `.pdf`) passes validation; the failure then
comes from opening the document — `pymupdf.open` cannot open a
non-regular file, modelled as the `cannot open document` error — and is the
generic conversion failure, not a validation error; by then the supplied
output directory has already been created. -/
theorem claim_C6_amended (doc : Doc) (fs : FS) (pdfPath : FsPath) (od? : Option FsPath)
    (hex : fs.pathExists pdfPath = true)
    (hsuf : lowerStr (nameSuffix pdfPath.name) = ".pdf")
    (hnofile : fs.isFile pdfPath = false) :
    convert_pdf_to_markdown doc fs pdfPath od? =
      ⟨mkOutputDir fs od?, none, [],
       some (.conversionFailure ("cannot open document: " ++ pdfPath.toStr))⟩ ∧
    hasValidationErr (convert_pdf_to_markdown doc fs pdfPath od?).err = false := by
  have h := convert_openFail doc fs pdfPath od? hex hsuf hnofile
  exact ⟨h, by rw [h]; rfl⟩

theorem claim_C6_amended_witness :
    convert_pdf_to_markdown docA fsDirPdf ["x.pdf"] (some ["out"]) =
      ⟨⟨[], [["x.pdf"], ["out"]]⟩, none, [],
       some (.conversionFailure "cannot open document: x.pdf")⟩ := by
  rw [(claim_C6_amended docA fsDirPdf ["x.pdf"] (some ["out"])
    (by decide) (by decide) (by decide)).1]
  decide

/-- C7 (counterexample): the per-page progress line is printed with two
leading spaces (`print(f"  Page ...")`), so its text is not exactly
`Page {i+1}/{total_pages} -> {filename}`: on a successful two-page run the
claimed line is absent from stdout while the two-space variant is
present. -/
theorem claim_C7_counterexample :
    (convert_pdf_to_markdown docA fsA ["d", "a.pdf"] (some ["out"])).ret =
        some [["out", "a_page_001.md"], ["out", "a_page_002.md"]] ∧
      "Page 1/2 -> a_page_001.md"
        ∉ (convert_pdf_to_markdown docA fsA ["d", "a.pdf"] (some ["out"])).stdout ∧
      "  Page 1/2 -> a_page_001.md"
        ∈ (convert_pdf_to_markdown docA fsA ["d", "a.pdf"] (some ["out"])).stdout := by
  decide

/-- C7 (amended): on a successful `N`-page run, stdout is exactly the four
header lines, then one progress line per page index `i` in increasing
order whose text is exactly
`"  Page {i+1}/{total_pages} -> {filename}"` — i.e. the claimed text
preceded by two spaces — and the summary line. -/
theorem claim_C7_amended (doc : Doc) (fs : FS) (pdfPath : FsPath) (od? : Option FsPath)
    (N : Nat)
    (hex : fs.pathExists pdfPath = true)
    (hsuf : lowerStr (nameSuffix pdfPath.name) = ".pdf")
    (hfile : fs.isFile pdfPath = true)
    (hopen : doc.openResult = .ok N)
    (hpages : ∀ p, p < N → pageOk doc p = true) :
    (convert_pdf_to_markdown doc fs pdfPath od?).stdout =
        headerLines pdfPath (resolveOutputDir pdfPath od?) N
          ++ (List.range N).map (progressLine (nameStem pdfPath.name) N)
          ++ [summaryLine N] ∧
      ∀ i, progressLine (nameStem pdfPath.name) N i =
        "  " ++ ("Page " ++ natDec (i + 1) ++ "/" ++ natDec N ++ " -> "
          ++ mdFilename (nameStem pdfPath.name) i) := by
  refine ⟨?_, fun i => ?_⟩
  · rw [convert_ok doc fs pdfPath od? N hex hsuf hfile hopen hpages]
  · unfold progressLine
    apply String.ext
    simp only [String.data_append, List.append_assoc]
    rfl

theorem claim_C7_amended_witness :
    (convert_pdf_to_markdown docA fsA ["d", "a.pdf"] (some ["out"])).stdout =
      ["Converting: d/a.pdf", "Total pages: 2", "Output directory: out",
       "Images directory: out/images",
       "  Page 1/2 -> a_page_001.md", "  Page 2/2 -> a_page_002.md",
       "Successfully converted 2 pages."] := by
  rw [(claim_C7_amended docA fsA ["d", "a.pdf"] (some ["out"]) 2
    (by decide) (by decide) (by decide) rfl (fun p _ => rfl)).1]
  decide

/-- C8: directory creation is idempotent (`mkdirParents` twice equals
`mkdirParents` once, and `exist_ok=True` means an existing directory never
fails — creation is total in the model); running the conversion twice
against the same existing output directory succeeds both times, and after
both runs every path other than the page output paths — in particular any
pre-existing unrelated file in that directory — still reads exactly as it
did before the first run. -/
theorem claim_C8 (doc : Doc) (fs : FS) (pdfPath : FsPath) (d : FsPath) (N : Nat)
    (hex : fs.pathExists pdfPath = true)
    (hsuf : lowerStr (nameSuffix pdfPath.name) = ".pdf")
    (hfile : fs.isFile pdfPath = true)
    (hopen : doc.openResult = .ok N)
    (hpages : ∀ p, p < N → pageOk doc p = true) :
    (convert_pdf_to_markdown doc fs pdfPath (some d)).err = none ∧
      (convert_pdf_to_markdown doc
          (convert_pdf_to_markdown doc fs pdfPath (some d)).fs pdfPath (some d)).err
        = none ∧
      (∀ g : FS, (g.mkdirParents d).mkdirParents d = g.mkdirParents d) ∧
      (∀ q : FsPath,
        (∀ p, p < N → q ≠ pagePath d (nameStem pdfPath.name) p) →
        (convert_pdf_to_markdown doc
            (convert_pdf_to_markdown doc fs pdfPath (some d)).fs pdfPath
            (some d)).fs.readFile q
          = fs.readFile q) := by
  have h1 := convert_ok doc fs pdfPath (some d) N hex hsuf hfile hopen hpages
  have hfile1 : (convert_pdf_to_markdown doc fs pdfPath (some d)).fs.isFile pdfPath = true := by
    rw [h1]
    exact isFile_writeAll_of _ _ _ _ _ _
      (by rw [isFile_mkdirParents, isFile_mkOutputDir]; exact hfile)
  have hex1 : (convert_pdf_to_markdown doc fs pdfPath (some d)).fs.pathExists pdfPath = true :=
    pathExists_of_isFile _ _ hfile1
  have h2 := convert_ok doc (convert_pdf_to_markdown doc fs pdfPath (some d)).fs pdfPath
    (some d) N hex1 hsuf hfile1 hopen hpages
  refine ⟨by rw [h1], by rw [h2], ?_, ?_⟩
  · intro g
    apply mkdirParents_of_present
    intro q hq
    exact (mem_dirs_mkdirParents _ _ _).mpr (Or.inr hq)
  · intro q hqne
    rw [h2]
    show (writeAll doc d (nameStem pdfPath.name) _ (List.range N)).readFile q = _
    rw [readFile_writeAll_notMem doc _ _ (List.range N) _ q
      (fun p hp => hqne p (List.mem_range.mp hp))]
    rw [readFile_mkdirParents, readFile_mkOutputDir, h1]
    show (writeAll doc d (nameStem pdfPath.name) _ (List.range N)).readFile q = _
    rw [readFile_writeAll_notMem doc _ _ (List.range N) _ q
      (fun p hp => hqne p (List.mem_range.mp hp))]
    rw [readFile_mkdirParents, readFile_mkOutputDir]

theorem claim_C8_witness :
    (convert_pdf_to_markdown docA fsKeep ["d", "a.pdf"] (some ["out"])).err = none ∧
      (convert_pdf_to_markdown docA
          (convert_pdf_to_markdown docA fsKeep ["d", "a.pdf"] (some ["out"])).fs
          ["d", "a.pdf"] (some ["out"])).err = none ∧
      (convert_pdf_to_markdown docA
          (convert_pdf_to_markdown docA fsKeep ["d", "a.pdf"] (some ["out"])).fs
          ["d", "a.pdf"] (some ["out"])).fs.readFile ["out", "keep.txt"]
        = some "precious" := by
  have h := claim_C8 docA fsKeep ["d", "a.pdf"] ["out"] 2
    (by decide) (by decide) (by decide) rfl (fun p _ => rfl)
  refine ⟨h.1, h.2.1, ?_⟩
  rw [h.2.2.2 ["out", "keep.txt"] (by decide)]
  decide

/-- C9: the returned path sequence does not depend on the text the external
renderer produces — two successful runs over the same filesystem, source
path, output directory and page count, with oracles that may render
arbitrarily different markdown (and may differ in every way except the
reported page count), return equal path sequences. -/
theorem claim_C9 (doc1 doc2 : Doc) (fs : FS) (pdfPath : FsPath) (od? : Option FsPath)
    (N : Nat)
    (hex : fs.pathExists pdfPath = true)
    (hsuf : lowerStr (nameSuffix pdfPath.name) = ".pdf")
    (hfile : fs.isFile pdfPath = true)
    (hopen1 : doc1.openResult = .ok N)
    (hopen2 : doc2.openResult = .ok N)
    (hp1 : ∀ p, p < N → pageOk doc1 p = true)
    (hp2 : ∀ p, p < N → pageOk doc2 p = true) :
    (convert_pdf_to_markdown doc1 fs pdfPath od?).ret =
      (convert_pdf_to_markdown doc2 fs pdfPath od?).ret := by
  rw [convert_ok doc1 fs pdfPath od? N hex hsuf hfile hopen1 hp1,
    convert_ok doc2 fs pdfPath od? N hex hsuf hfile hopen2 hp2]

theorem claim_C9_witness :
    pageText docA 0 ≠ pageText docB 0 ∧
      (convert_pdf_to_markdown docA fsA ["d", "a.pdf"] (some ["out"])).ret =
        (convert_pdf_to_markdown docB fsA ["d", "a.pdf"] (some ["out"])).ret :=
  ⟨by decide,
   claim_C9 docA docB fsA ["d", "a.pdf"] (some ["out"]) 2
     (by decide) (by decide) (by decide) rfl rfl (fun p _ => rfl) (fun p _ => rfl)⟩

/-- C10: a file whose entire name is `.pdf` has, per `PurePath.suffix`, an
empty extension (the leading dot marks a dotfile, not a suffix), so even
though the name ends in `.pdf` the run is rejected with `ValueError`, the
filesystem unchanged and nothing printed. -/
theorem claim_C10 (doc : Doc) (fs : FS) (pdfPath : FsPath) (od? : Option FsPath)
    (hname : pdfPath.name = ".pdf")
    (hex : fs.pathExists pdfPath = true) :
    nameSuffix pdfPath.name = "" ∧
      convert_pdf_to_markdown doc fs pdfPath od? =
        ⟨fs, none, [],
         some (.valueError ("File does not appear to be a PDF: " ++ pdfPath.toStr))⟩ := by
  constructor
  · rw [hname]
    decide
  · apply convert_badSuffix doc fs pdfPath od? hex
    rw [hname]
    decide

theorem claim_C10_witness :
    convert_pdf_to_markdown docA fsDotPdf [".pdf"] none =
      ⟨fsDotPdf, none, [],
       some (.valueError "File does not appear to be a PDF: .pdf")⟩ := by
  rw [(claim_C10 docA fsDotPdf [".pdf"] none (by decide) (by decide)).2]
  decide
